import Mathlib

/-!
Shallow embedding of the `backstage-jira-plugin` repository:
the frontend `JiraIssuesCard` (filtering, 3-hour localStorage cache,
derived filter vocabularies, relative-time label, status colors) and the
backend proxy route `GET /issues/:projectKey`.

Every definition mirrors the corresponding TypeScript source. Definitions
come first, followed by all lemmas and theorems.
-/

/-- Embeds `JiraIssue.fields.status`, a record holding the status name. -/
structure JiraStatus where
  name : String
deriving DecidableEq, Repr

/-- Embeds `JiraIssue.fields.assignee` — display name and optional email. -/
structure JiraAssignee where
  displayName : String
  emailAddress : Option String
deriving DecidableEq, Repr

/-- Embeds `JiraIssue.fields.priority`. -/
structure JiraPriority where
  name : String
deriving DecidableEq, Repr

/-- Embeds `JiraIssue.fields.issuetype`. -/
structure JiraIssueType where
  name : String
deriving DecidableEq, Repr

/-- The `fields` member of the frontend `JiraIssue` interface; the four
classification fields are optional in the upstream JSON. -/
structure JiraFields where
  summary : String
  status : Option JiraStatus
  assignee : Option JiraAssignee
  priority : Option JiraPriority
  issuetype : Option JiraIssueType
deriving DecidableEq, Repr

/-- The frontend `JiraIssue` interface. -/
structure JiraIssue where
  key : String
  fields : JiraFields
deriving DecidableEq, Repr

/-- The frontend `CachedData` interface: issues plus capture timestamp
(milliseconds since epoch). -/
structure CachedData where
  issues : List JiraIssue
  timestamp : Int
deriving DecidableEq, Repr

/-- Embeds `const CACHE_DURATION = 3 * 60 * 60 * 1000` (3 hours in ms). -/
def CACHE_DURATION : Int := 3 * 60 * 60 * 1000

/-- The four `selected*` React state strings; `''` means "no filter". -/
structure FilterSelection where
  selectedType : String
  selectedAssignee : String
  selectedStatus : String
  selectedPriority : String
deriving DecidableEq, Repr

/-- The predicate body of the `issues.filter(...)` callback in the
`filteredIssues` memo: each non-empty `selected*` string rejects an issue
whose corresponding optional field (`issue.fields.X?.name`, with `undefined`
modelled as `none`) differs from it. -/
def issueMatchesFilters (sel : FilterSelection) (issue : JiraIssue) : Bool :=
  if sel.selectedType != "" && issue.fields.issuetype.map JiraIssueType.name != some sel.selectedType then false
  else if sel.selectedAssignee != "" && issue.fields.assignee.map JiraAssignee.displayName != some sel.selectedAssignee then false
  else if sel.selectedStatus != "" && issue.fields.status.map JiraStatus.name != some sel.selectedStatus then false
  else if sel.selectedPriority != "" && issue.fields.priority.map JiraPriority.name != some sel.selectedPriority then false
  else true

/-- The `filteredIssues` memo: the loaded issues restricted by the current
filter selection. -/
def filteredIssues (issues : List JiraIssue) (sel : FilterSelection) : List JiraIssue :=
  issues.filter (issueMatchesFilters sel)

/-- Parse status of the string stored in `localStorage` under one cache key:
no entry at all, an entry `JSON.parse` throws on, or a parsed snapshot. -/
inductive CacheParseResult where
  | absent
  | corrupt
  | parsed (data : CachedData)
deriving DecidableEq, Repr

/-- Outcome of the cache-lookup phase of `fetchIssues`: serve from the
snapshot, or fall through to the network fetch. -/
inductive FetchAction where
  | useCache (data : CachedData)
  | network
deriving DecidableEq, Repr

/-- Outcome of `fetch(...)` plus `res.json()` in the frontend: success
carries the optional `issues` member of the response body (`data.issues`),
while a non-ok HTTP status, a network error and a JSON error all throw into
the `catch` block. -/
inductive NetworkResult where
  | ok (issuesField : Option (List JiraIssue))
  | failure
deriving DecidableEq, Repr

/-- The in-memory React state of `JiraIssuesCard` touched by `fetchIssues`. -/
structure CardState where
  issues : List JiraIssue
  loading : Bool
  lastUpdated : Option Int
deriving DecidableEq, Repr

/-- The cache key template `jira-issues-` followed by the project key. -/
def cacheKey (projectKey : String) : String := "jira-issues-" ++ projectKey

/-- The cache-check phase of `fetchIssues` (the block guarded by
`if (!forceRefresh)`): a stored snapshot is used iff it exists, parses, and
`Date.now() - cachedData.timestamp < CACHE_DURATION`. -/
def cacheDecision : Bool → CacheParseResult → Int → FetchAction
  | true, _, _ => .network
  | false, stored, now =>
    match stored with
    | .absent => .network
    | .corrupt => .network
    | .parsed data =>
        if now - data.timestamp < CACHE_DURATION then .useCache data else .network

/-- One run of `fetchIssues(forceRefresh)`. Inputs: the current React state,
the localStorage contents (a map from key to parse status), `Date.now()` at
the cache check (`now`) and after the fetch resolves (`tFetch`), and the
network outcome. Output: new state, new localStorage contents, and whether a
network request was issued. An absent or empty (falsy) project key returns
immediately. -/
def fetchIssues (projectKey : Option String) (forceRefresh : Bool) (st : CardState)
    (store : String → CacheParseResult) (now tFetch : Int) (net : NetworkResult) :
    CardState × (String → CacheParseResult) × Bool :=
  match projectKey with
  | none => (st, store, false)
  | some pk =>
    if pk = "" then (st, store, false)
    else
      match cacheDecision forceRefresh (store (cacheKey pk)) now with
      | .useCache data =>
          ({ issues := data.issues, lastUpdated := some data.timestamp, loading := false },
           store, false)
      | .network =>
          match net with
          | .ok issuesField =>
              let fetchedIssues := issuesField.getD []
              ({ issues := fetchedIssues, lastUpdated := some tFetch, loading := false },
               fun k => if k = cacheKey pk then .parsed ⟨fetchedIssues, tFetch⟩ else store k,
               true)
          | .failure =>
              ({ st with loading := false }, store, true)

/-- The `handleRefresh` click handler — `fetchIssues(true)`. -/
def handleRefresh (projectKey : Option String) (st : CardState)
    (store : String → CacheParseResult) (now tFetch : Int) (net : NetworkResult) :
    CardState × (String → CacheParseResult) × Bool :=
  fetchIssues projectKey true st store now tFetch net

/-- Lexicographic comparison of character lists (by code point), the order
JavaScript's default `Array.prototype.sort` applies to these ASCII names. -/
def charListLe : List Char → List Char → Bool
  | [], _ => true
  | _ :: _, [] => false
  | a :: as, b :: bs => if a < b then true else if b < a then false else charListLe as bs

/-- Lexicographic order on strings. -/
def strLe (a b : String) : Prop := charListLe a.toList b.toList = true

instance : DecidableRel strLe := fun a b =>
  inferInstanceAs (Decidable (charListLe a.toList b.toList = true))

/-- The `.filter(Boolean)` step applied to the list of optional field values:
drops `undefined` and the falsy empty string. -/
def filterBoolean : List (Option String) → List String
  | [] => []
  | none :: rest => filterBoolean rest
  | some s :: rest => if s = "" then filterBoolean rest else s :: filterBoolean rest

/-- Adding one element to a JS `Set` held as its insertion-ordered list. -/
def jsSetAdd (acc : List String) (x : String) : List String :=
  if x ∈ acc then acc else acc ++ [x]

/-- The `Array.from(new Set(l))` step: first occurrences, in insertion order. -/
def jsSetOfList (l : List String) : List String := l.foldl jsSetAdd []

/-- The `.sort()` step with the default comparator on these string lists. -/
def sortStrings (l : List String) : List String := List.insertionSort strLe l

/-- The common pipeline of the four vocabulary memos:
`Array.from(new Set(list.filter(Boolean))).sort()`. -/
def uniqueSorted (l : List (Option String)) : List String :=
  sortStrings (jsSetOfList (filterBoolean l))

/-- The `types` memo. -/
def types (issues : List JiraIssue) : List String :=
  uniqueSorted (issues.map fun issue => issue.fields.issuetype.map JiraIssueType.name)

/-- The `assignees` memo. -/
def assignees (issues : List JiraIssue) : List String :=
  uniqueSorted (issues.map fun issue => issue.fields.assignee.map JiraAssignee.displayName)

/-- The `statuses` memo. -/
def statuses (issues : List JiraIssue) : List String :=
  uniqueSorted (issues.map fun issue => issue.fields.status.map JiraStatus.name)

/-- The `priorities` memo. -/
def priorities (issues : List JiraIssue) : List String :=
  uniqueSorted (issues.map fun issue => issue.fields.priority.map JiraPriority.name)

/-- Embeds `formatTimeAgo`, with both `Date.now()` (`now`) and the argument
in milliseconds; `Math.floor` of a division by a positive constant is
`Int.fdiv`. -/
def formatTimeAgo (now timestamp : Int) : String :=
  let seconds := (now - timestamp).fdiv 1000
  if seconds < 60 then "just now"
  else
    let minutes := seconds.fdiv 60
    if minutes < 60 then toString minutes ++ " minute" ++ (if minutes > 1 then "s" else "") ++ " ago"
    else
      let hours := minutes.fdiv 60
      if hours < 24 then toString hours ++ " hour" ++ (if hours > 1 then "s" else "") ++ " ago"
      else
        let days := hours.fdiv 24
        toString days ++ " day" ++ (if days > 1 then "s" else "") ++ " ago"

/-- The `status.toLowerCase()` step (character-wise; every keyword the
component compares against is ASCII). -/
def toLowerString (s : String) : String := String.mk (s.data.map Char.toLower)

/-- Boolean prefix test on character lists. -/
def isPrefixB : List Char → List Char → Bool
  | [], _ => true
  | _ :: _, [] => false
  | a :: as, b :: bs => a == b && isPrefixB as bs

/-- Boolean contiguous-substring test on character lists. -/
def isInfixB (needle : List Char) : List Char → Bool
  | [] => isPrefixB needle []
  | c :: cs => isPrefixB needle (c :: cs) || isInfixB needle cs

/-- JavaScript's `hay.includes(needle)` substring test. -/
def includes (hay needle : String) : Bool := isInfixB needle.data hay.data

/-- The Material-UI `Chip` color prop values used by the component. -/
inductive MuiColor where
  | primary
  | secondary
  | default
deriving DecidableEq, Repr

/-- The inline style some branches of `getStatusColor` attach. -/
structure ChipStyle where
  backgroundColor : String
  color : String
deriving DecidableEq, Repr

/-- The return shape of `getStatusColor`: a color prop plus optional style. -/
structure StatusColor where
  color : MuiColor
  style : Option ChipStyle
deriving DecidableEq, Repr

/-- Embeds `getStatusColor`: an ordered chain of case-insensitive substring
tests, first match wins, gray default. -/
def getStatusColor (status : String) : StatusColor :=
  let statusLower := toLowerString status
  if includes statusLower "done" || includes statusLower "closed" || includes statusLower "resolved" then
    ⟨.primary, none⟩
  else if includes statusLower "progress" then
    ⟨.primary, some ⟨"#1976d2", "white"⟩⟩
  else if includes statusLower "review" then
    ⟨.secondary, some ⟨"#9c27b0", "white"⟩⟩
  else if includes statusLower "to do" || includes statusLower "new" || includes statusLower "open" then
    ⟨.default, some ⟨"#ff9800", "white"⟩⟩
  else if includes statusLower "block" || includes statusLower "hold" || includes statusLower "wait" then
    ⟨.default, some ⟨"#f44336", "white"⟩⟩
  else if includes statusLower "test" || includes statusLower "qa" then
    ⟨.default, some ⟨"#009688", "white"⟩⟩
  else if includes statusLower "release" && includes statusLower "pending" then
    ⟨.primary, some ⟨"#4caf50", "white"⟩⟩
  else
    ⟨.default, none⟩

/-- Whether the lowercased status matches keyword group `i` of the seven
ordered groups of `getStatusColor`. -/
def statusGroupMatches (statusLower : String) : Nat → Bool
  | 0 => includes statusLower "done" || includes statusLower "closed" || includes statusLower "resolved"
  | 1 => includes statusLower "progress"
  | 2 => includes statusLower "review"
  | 3 => includes statusLower "to do" || includes statusLower "new" || includes statusLower "open"
  | 4 => includes statusLower "block" || includes statusLower "hold" || includes statusLower "wait"
  | 5 => includes statusLower "test" || includes statusLower "qa"
  | 6 => includes statusLower "release" && includes statusLower "pending"
  | _ => false

/-- The color each of the seven keyword groups maps to. -/
def statusGroupColor : Nat → StatusColor
  | 0 => ⟨.primary, none⟩
  | 1 => ⟨.primary, some ⟨"#1976d2", "white"⟩⟩
  | 2 => ⟨.secondary, some ⟨"#9c27b0", "white"⟩⟩
  | 3 => ⟨.default, some ⟨"#ff9800", "white"⟩⟩
  | 4 => ⟨.default, some ⟨"#f44336", "white"⟩⟩
  | 5 => ⟨.default, some ⟨"#009688", "white"⟩⟩
  | 6 => ⟨.primary, some ⟨"#4caf50", "white"⟩⟩
  | _ => ⟨.default, none⟩

/-- Index of the first keyword group matching the lowercased status, if any. -/
def firstMatchingGroup (statusLower : String) : Option Nat :=
  if statusGroupMatches statusLower 0 then some 0
  else if statusGroupMatches statusLower 1 then some 1
  else if statusGroupMatches statusLower 2 then some 2
  else if statusGroupMatches statusLower 3 then some 3
  else if statusGroupMatches statusLower 4 then some 4
  else if statusGroupMatches statusLower 5 then some 5
  else if statusGroupMatches statusLower 6 then some 6
  else none

/-- The characters ECMAScript's `encodeURIComponent` leaves unescaped:
letters, digits, and - _ . ! ~ * apostrophe ( ) . -/
def isUriUnescaped (c : Char) : Bool :=
  (65 ≤ c.toNat && c.toNat ≤ 90) || (97 ≤ c.toNat && c.toNat ≤ 122) ||
  (48 ≤ c.toNat && c.toNat ≤ 57) ||
  c.toNat == 45 || c.toNat == 95 || c.toNat == 46 || c.toNat == 33 ||
  c.toNat == 126 || c.toNat == 42 || c.toNat == 39 || c.toNat == 40 || c.toNat == 41

/-- Uppercase hexadecimal digit for a value below 16. -/
def hexDigit (n : Nat) : Char :=
  if n < 10 then Char.ofNat (48 + n) else Char.ofNat (55 + n)

/-- A percent-escaped byte, e.g. byte 32 becomes `%20`. -/
def percentByte (b : Nat) : String :=
  String.mk [Char.ofNat 37, hexDigit (b / 16), hexDigit (b % 16)]

/-- UTF-8 bytes of one character. -/
def utf8Bytes (c : Char) : List Nat :=
  let n := c.toNat
  if n < 128 then [n]
  else if n < 2048 then [192 + n / 64, 128 + n % 64]
  else if n < 65536 then [224 + n / 4096, 128 + (n / 64) % 64, 128 + n % 64]
  else [240 + n / 262144, 128 + (n / 4096) % 64, 128 + (n / 64) % 64, 128 + n % 64]

/-- ECMAScript's `encodeURIComponent`. -/
def encodeURIComponent (s : String) : String :=
  String.join (s.data.map fun c =>
    if isUriUnescaped c then String.mk [c] else String.join ((utf8Bytes c).map percentByte))

/-- The JQL template of the backend route:
project=, the project key, then AND status NOT IN (Closed, Resolved, Done). -/
def jqlQuery (projectKey : String) : String :=
  "project=" ++ projectKey ++ " AND status NOT IN (Closed, Resolved, Done)"

/-- Embeds `const maxResults = 1000`. -/
def maxResults : Nat := 1000

/-- The upstream search URL the route builds. -/
def issuesUrl (jiraUrl projectKey : String) : String :=
  jiraUrl ++ "/rest/api/2/search?jql=" ++ encodeURIComponent (jqlQuery projectKey) ++
    "&maxResults=" ++ toString maxResults

/-- The single outbound request of the route: URL plus the two headers. -/
structure UpstreamRequest where
  url : String
  authorization : String
  accept : String
deriving DecidableEq, Repr

/-- The request the route sends: the built URL plus the two headers. -/
def issuesRequest (jiraUrl jiraToken projectKey : String) : UpstreamRequest :=
  { url := issuesUrl jiraUrl projectKey,
    authorization := "Bearer " ++ jiraToken,
    accept := "application/json" }

/-- Result of the two `config.getString` calls: both values, or the thrown
error's message (caught by the route's catch-all). -/
inductive ConfigRead where
  | ok (jiraToken jiraUrl : String)
  | error (message : String)
deriving DecidableEq, Repr

/-- Outcome of the route's upstream `fetch`: an HTTP response with its
status, its body text (`response.text()`), and the result of
`response.json()` (parsed body, or the thrown error's message); or a network
error whose message is caught by the catch-all. -/
inductive UpstreamOutcome where
  | response (status : Nat) (text : String) (jsonResult : Except String String)
  | networkError (message : String)
deriving Repr

/-- The JSON body the route answers with: the relayed upstream body, the
structured upstream-error body with fields error and details, or the
catch-all body with fields error and message. -/
inductive RouteBody where
  | upstreamJson (body : String)
  | errorDetails (error details : String)
  | errorMessage (error message : String)
deriving DecidableEq, Repr

/-- The route's HTTP answer: status code and JSON body. -/
structure RouteResponse where
  status : Nat
  body : RouteBody
deriving DecidableEq, Repr

/-- Embeds the handler of `GET /issues/:projectKey`: reads config, builds
the JQL search request, sends it once, and relays the outcome. `express`'s
`res.json(data)` without an explicit status answers 200. The returned list
collects every outbound upstream request the handler makes. -/
def issuesRoute (cfg : ConfigRead) (projectKey : String)
    (upstream : UpstreamRequest → UpstreamOutcome) : List UpstreamRequest × RouteResponse :=
  match cfg with
  | .error msg => ([], ⟨500, .errorMessage "Internal server error" msg⟩)
  | .ok jiraToken jiraUrl =>
    let req := issuesRequest jiraUrl jiraToken projectKey
    match upstream req with
    | .networkError msg => ([req], ⟨500, .errorMessage "Internal server error" msg⟩)
    | .response status text jsonResult =>
      if 200 ≤ status ∧ status < 300 then
        match jsonResult with
        | .ok data => ([req], ⟨200, .upstreamJson data⟩)
        | .error msg => ([req], ⟨500, .errorMessage "Internal server error" msg⟩)
      else
        ([req], ⟨status, .errorDetails ("Jira API error: " ++ toString status) text⟩)

/-! Lemmas and theorems. -/

example :
    filteredIssues
      [⟨"A-1", ⟨"s1", some ⟨"In Progress"⟩, none, none, none⟩⟩,
       ⟨"A-2", ⟨"s2", some ⟨"Done"⟩, none, none, none⟩⟩,
       ⟨"A-3", ⟨"s3", some ⟨"In Progress"⟩, none, none, none⟩⟩]
      ⟨"", "", "In Progress", ""⟩ =
      [⟨"A-1", ⟨"s1", some ⟨"In Progress"⟩, none, none, none⟩⟩,
       ⟨"A-3", ⟨"s3", some ⟨"In Progress"⟩, none, none, none⟩⟩] := by decide

/-- One rejection test of the filter callback, in terms of an already
projected optional field value. -/
lemma filterCond_iff (v : String) (f : Option String) :
    (v != "" && f != some v) = true ↔ (v ≠ "" ∧ f ≠ some v) := by
  simp [Bool.and_eq_true, bne_iff_ne]

lemma filterCond_pos (v : String) (f : Option String)
    (h : (v != "" && f != some v) = true) : ¬(v = "" ∨ f = some v) := by
  rw [filterCond_iff] at h
  rintro (hc | hc)
  · exact h.1 hc
  · exact h.2 hc

lemma filterCond_neg (v : String) (f : Option String)
    (h : ¬(v != "" && f != some v) = true) : v = "" ∨ f = some v := by
  rw [filterCond_iff] at h
  by_cases hv : v = ""
  · exact Or.inl hv
  · right
    by_contra hf
    exact h ⟨hv, hf⟩

lemma issueMatchesFilters_iff (sel : FilterSelection) (issue : JiraIssue) :
    issueMatchesFilters sel issue = true ↔
      (sel.selectedType = "" ∨ issue.fields.issuetype.map JiraIssueType.name = some sel.selectedType) ∧
      (sel.selectedAssignee = "" ∨ issue.fields.assignee.map JiraAssignee.displayName = some sel.selectedAssignee) ∧
      (sel.selectedStatus = "" ∨ issue.fields.status.map JiraStatus.name = some sel.selectedStatus) ∧
      (sel.selectedPriority = "" ∨ issue.fields.priority.map JiraPriority.name = some sel.selectedPriority) := by
  unfold issueMatchesFilters
  split_ifs with h1 h2 h3 h4
  · exact iff_of_false (by simp) fun hc => filterCond_pos _ _ h1 hc.1
  · exact iff_of_false (by simp) fun hc => filterCond_pos _ _ h2 hc.2.1
  · exact iff_of_false (by simp) fun hc => filterCond_pos _ _ h3 hc.2.2.1
  · exact iff_of_false (by simp) fun hc => filterCond_pos _ _ h4 hc.2.2.2
  · exact iff_of_true rfl
      ⟨filterCond_neg _ _ h1, filterCond_neg _ _ h2, filterCond_neg _ _ h3, filterCond_neg _ _ h4⟩

/-- C1: membership in the filtered list is exactly: membership in the loaded
list, and for each of the four dimensions either the filter is empty or the
issue's (optional) field equals the filter value. -/
theorem filteredIssues_spec (issues : List JiraIssue) (sel : FilterSelection)
    (issue : JiraIssue) :
    issue ∈ filteredIssues issues sel ↔
      issue ∈ issues ∧
      (sel.selectedType = "" ∨ issue.fields.issuetype.map JiraIssueType.name = some sel.selectedType) ∧
      (sel.selectedAssignee = "" ∨ issue.fields.assignee.map JiraAssignee.displayName = some sel.selectedAssignee) ∧
      (sel.selectedStatus = "" ∨ issue.fields.status.map JiraStatus.name = some sel.selectedStatus) ∧
      (sel.selectedPriority = "" ∨ issue.fields.priority.map JiraPriority.name = some sel.selectedPriority) := by
  simp only [filteredIssues, List.mem_filter]
  rw [issueMatchesFilters_iff]

lemma fetchIssues_eq (pk : String) (hpk : pk ≠ "") (force : Bool) (st : CardState)
    (store : String → CacheParseResult) (now tFetch : Int) (net : NetworkResult) :
    fetchIssues (some pk) force st store now tFetch net =
      match cacheDecision force (store (cacheKey pk)) now with
      | .useCache data =>
          ({ issues := data.issues, lastUpdated := some data.timestamp, loading := false },
           store, false)
      | .network =>
          match net with
          | .ok issuesField =>
              ({ issues := issuesField.getD [], lastUpdated := some tFetch, loading := false },
               fun k => if k = cacheKey pk then .parsed ⟨issuesField.getD [], tFetch⟩ else store k,
               true)
          | .failure => ({ st with loading := false }, store, true) := by
  simp only [fetchIssues]
  rw [if_neg hpk]

lemma cacheDecision_useCache_inv (stored : CacheParseResult) (now : Int) (data : CachedData)
    (h : cacheDecision false stored now = .useCache data) :
    stored = .parsed data ∧ now - data.timestamp < CACHE_DURATION := by
  cases stored with
  | absent => exact absurd h (by simp [cacheDecision])
  | corrupt => exact absurd h (by simp [cacheDecision])
  | parsed d =>
    by_cases hf : now - d.timestamp < CACHE_DURATION
    · have : cacheDecision false (.parsed d) now = .useCache d := by
        simp [cacheDecision, hf]
      rw [this] at h
      cases h
      exact ⟨rfl, hf⟩
    · have : cacheDecision false (.parsed d) now = .network := by
        simp [cacheDecision, hf]
      rw [this] at h
      exact absurd h (by simp)

lemma cacheDecision_fresh (data : CachedData) (now : Int)
    (hfresh : now - data.timestamp < CACHE_DURATION) :
    cacheDecision false (.parsed data) now = .useCache data := by
  simp [cacheDecision, hfresh]

/-- C2: a non-forced `fetchIssues` run skips the network (and serves the
snapshot's issues and timestamp) precisely when the stored entry parses to a
snapshot strictly younger than `CACHE_DURATION`; an unparseable entry is
decided exactly like an absent one (no error, fall through to fetch). -/
theorem fetchIssues_cache_policy (pk : String) (hpk : pk ≠ "") (st : CardState)
    (store : String → CacheParseResult) (now tFetch : Int) (net : NetworkResult) :
    ((fetchIssues (some pk) false st store now tFetch net).2.2 = false ↔
      ∃ data, store (cacheKey pk) = .parsed data ∧ now - data.timestamp < CACHE_DURATION) ∧
    (∀ data, store (cacheKey pk) = .parsed data → now - data.timestamp < CACHE_DURATION →
      (fetchIssues (some pk) false st store now tFetch net).1 =
        { issues := data.issues, lastUpdated := some data.timestamp, loading := false }) ∧
    (store (cacheKey pk) = .corrupt →
      cacheDecision false (store (cacheKey pk)) now = cacheDecision false .absent now) := by
  have heq := fetchIssues_eq pk hpk false st store now tFetch net
  refine ⟨⟨?_, ?_⟩, ?_, ?_⟩
  · intro h
    rcases hd : cacheDecision false (store (cacheKey pk)) now with data | _
    · obtain ⟨hparsed, hfresh⟩ := cacheDecision_useCache_inv _ _ _ hd
      exact ⟨data, hparsed, hfresh⟩
    · rw [heq, hd] at h
      cases net <;> simp at h
  · rintro ⟨data, hparsed, hfresh⟩
    rw [heq, hparsed, cacheDecision_fresh data now hfresh]
  · intro data hparsed hfresh
    rw [heq, hparsed, cacheDecision_fresh data now hfresh]
  · intro hcorrupt
    rw [hcorrupt]
    rfl

/-- C3: `handleRefresh` (i.e. `fetchIssues(true)`) always issues a network
request, whatever the cache holds; on success the in-memory list becomes the
fetched issues, and the snapshot `(issues, timestamp)` is written under this
project's cache key, leaving every other key unchanged. -/
theorem handleRefresh_spec (pk : String) (hpk : pk ≠ "") (st : CardState)
    (store : String → CacheParseResult) (now tFetch : Int)
    (issuesField : Option (List JiraIssue)) :
    (∀ net, (handleRefresh (some pk) st store now tFetch net).2.2 = true) ∧
    (handleRefresh (some pk) st store now tFetch (.ok issuesField)).1 =
      { issues := issuesField.getD [], lastUpdated := some tFetch, loading := false } ∧
    (handleRefresh (some pk) st store now tFetch (.ok issuesField)).2.1 (cacheKey pk) =
      .parsed ⟨issuesField.getD [], tFetch⟩ ∧
    (∀ k, k ≠ cacheKey pk →
      (handleRefresh (some pk) st store now tFetch (.ok issuesField)).2.1 k = store k) := by
  have hdec : ∀ s, cacheDecision true s now = .network := fun s => rfl
  refine ⟨?_, ?_, ?_, ?_⟩
  · intro net
    rw [handleRefresh, fetchIssues_eq pk hpk true st store now tFetch net, hdec]
    cases net <;> rfl
  · rw [handleRefresh, fetchIssues_eq pk hpk true st store now tFetch _, hdec]
  · rw [handleRefresh, fetchIssues_eq pk hpk true st store now tFetch _, hdec]
    simp
  · intro k hk
    rw [handleRefresh, fetchIssues_eq pk hpk true st store now tFetch _, hdec]
    simp [hk]

/-- C6: when a network fetch actually happens (the cache decision fell
through) and fails, the issue list, last-updated timestamp and the whole
localStorage contents are untouched; only `loading` is set back to `false`. -/
theorem fetchIssues_failure_preserves_state (pk : String) (hpk : pk ≠ "") (force : Bool)
    (st : CardState) (store : String → CacheParseResult) (now tFetch : Int)
    (hnet : cacheDecision force (store (cacheKey pk)) now = .network) :
    (fetchIssues (some pk) force st store now tFetch .failure).1.issues = st.issues ∧
    (fetchIssues (some pk) force st store now tFetch .failure).1.lastUpdated = st.lastUpdated ∧
    (fetchIssues (some pk) force st store now tFetch .failure).1.loading = false ∧
    (∀ k, (fetchIssues (some pk) force st store now tFetch .failure).2.1 k = store k) := by
  rw [fetchIssues_eq pk hpk force st store now tFetch .failure, hnet]
  exact ⟨rfl, rfl, rfl, fun _ => rfl⟩

theorem fetchIssues_cache_policy_witness :
    (fetchIssues (some "ABC") false ⟨[], true, none⟩ (fun _ => .parsed ⟨[], 42⟩) 100 0 .failure).1 =
      { issues := [], lastUpdated := some 42, loading := false } :=
  (fetchIssues_cache_policy "ABC" (by decide) ⟨[], true, none⟩
    (fun _ => .parsed ⟨[], 42⟩) 100 0 .failure).2.1 ⟨[], 42⟩ rfl (by decide)

theorem handleRefresh_spec_witness :
    (handleRefresh (some "ABC") ⟨[], false, none⟩ (fun _ => .parsed ⟨[], 0⟩) 5 7 (.ok none)).2.2
      = true :=
  (handleRefresh_spec "ABC" (by decide) ⟨[], false, none⟩
    (fun _ => .parsed ⟨[], 0⟩) 5 7 none).1 (.ok none)

theorem fetchIssues_failure_preserves_state_witness :
    (fetchIssues (some "ABC") false ⟨[⟨"K-1", ⟨"s", none, none, none, none⟩⟩], true, some 3⟩
      (fun _ => .absent) 0 0 .failure).1.issues = [⟨"K-1", ⟨"s", none, none, none, none⟩⟩] :=
  (fetchIssues_failure_preserves_state "ABC" (by decide) false
    ⟨[⟨"K-1", ⟨"s", none, none, none, none⟩⟩], true, some 3⟩
    (fun _ => .absent) 0 0 rfl).1

lemma charListLe_cons (a b : Char) (as bs : List Char) :
    charListLe (a :: as) (b :: bs) = true ↔ a < b ∨ (a = b ∧ charListLe as bs = true) := by
  rcases lt_trichotomy a b with h | h | h
  · simp [charListLe, h]
  · subst h
    simp [charListLe, lt_irrefl]
  · have hab : ¬a < b := asymm h
    have hne : a ≠ b := ne_of_gt h
    simp [charListLe, hab, h, hne]

lemma charListLe_total : ∀ xs ys : List Char, charListLe xs ys = true ∨ charListLe ys xs = true
  | [], _ => Or.inl rfl
  | _ :: _, [] => Or.inr rfl
  | a :: as, b :: bs => by
    rcases lt_trichotomy a b with h | h | h
    · exact Or.inl ((charListLe_cons a b as bs).mpr (Or.inl h))
    · rcases charListLe_total as bs with ih | ih
      · exact Or.inl ((charListLe_cons a b as bs).mpr (Or.inr ⟨h, ih⟩))
      · exact Or.inr ((charListLe_cons b a bs as).mpr (Or.inr ⟨h.symm, ih⟩))
    · exact Or.inr ((charListLe_cons b a bs as).mpr (Or.inl h))

lemma charListLe_trans : ∀ xs ys zs : List Char,
    charListLe xs ys = true → charListLe ys zs = true → charListLe xs zs = true
  | [], _, _, _, _ => rfl
  | _ :: _, [], _, h1, _ => absurd h1 (by simp [charListLe])
  | _ :: _, _ :: _, [], _, h2 => absurd h2 (by simp [charListLe])
  | a :: as, b :: bs, c :: cs, h1, h2 => by
    rw [charListLe_cons] at h1 h2 ⊢
    rcases h1 with h1 | ⟨h1e, h1r⟩
    · rcases h2 with h2 | ⟨h2e, -⟩
      · exact Or.inl (h1.trans h2)
      · exact Or.inl (h2e ▸ h1)
    · rcases h2 with h2 | ⟨h2e, h2r⟩
      · exact Or.inl (by rw [h1e]; exact h2)
      · exact Or.inr ⟨h1e.trans h2e, charListLe_trans as bs cs h1r h2r⟩

lemma mem_filterBoolean (x : String) : ∀ l : List (Option String),
    x ∈ filterBoolean l ↔ some x ∈ l ∧ x ≠ ""
  | [] => by simp [filterBoolean]
  | none :: rest => by
    rw [filterBoolean]
    rw [mem_filterBoolean x rest]
    simp
  | some s :: rest => by
    rw [filterBoolean]
    by_cases hs : s = ""
    · rw [if_pos hs, mem_filterBoolean x rest]
      subst hs
      constructor
      · rintro ⟨hm, hne⟩
        exact ⟨List.mem_cons_of_mem _ hm, hne⟩
      · rintro ⟨hm, hne⟩
        rcases List.mem_cons.mp hm with hc | hc
        · exact absurd (Option.some.inj hc) hne
        · exact ⟨hc, hne⟩
    · rw [if_neg hs]
      constructor
      · intro hm
        rcases List.mem_cons.mp hm with hc | hc
        · subst hc
          exact ⟨List.mem_cons_self _ _, hs⟩
        · obtain ⟨hm', hne⟩ := (mem_filterBoolean x rest).mp hc
          exact ⟨List.mem_cons_of_mem _ hm', hne⟩
      · rintro ⟨hm, hne⟩
        rcases List.mem_cons.mp hm with hc | hc
        · exact (Option.some.inj hc) ▸ List.mem_cons_self _ _
        · exact List.mem_cons_of_mem _ ((mem_filterBoolean x rest).mpr ⟨hc, hne⟩)

lemma mem_jsSetAdd (acc : List String) (y x : String) :
    x ∈ jsSetAdd acc y ↔ x ∈ acc ∨ x = y := by
  unfold jsSetAdd
  split_ifs with h
  · constructor
    · exact Or.inl
    · rintro (hc | hc)
      · exact hc
      · exact hc ▸ h
  · simp

lemma nodup_jsSetAdd (acc : List String) (y : String) (h : acc.Nodup) :
    (jsSetAdd acc y).Nodup := by
  unfold jsSetAdd
  split_ifs with hm
  · exact h
  · rw [List.nodup_append]
    exact ⟨h, List.nodup_singleton y, by simpa using hm⟩

lemma jsSetFold_mem (x : String) : ∀ (l : List String) (acc : List String),
    x ∈ List.foldl jsSetAdd acc l ↔ x ∈ acc ∨ x ∈ l
  | [], acc => by simp
  | y :: rest, acc => by
    rw [List.foldl_cons, jsSetFold_mem x rest (jsSetAdd acc y), mem_jsSetAdd]
    constructor
    · rintro ((hc | hc) | hc)
      · exact Or.inl hc
      · exact Or.inr (hc ▸ List.mem_cons_self _ _)
      · exact Or.inr (List.mem_cons_of_mem _ hc)
    · rintro (hc | hc)
      · exact Or.inl (Or.inl hc)
      · rcases List.mem_cons.mp hc with hc' | hc'
        · exact Or.inl (Or.inr hc')
        · exact Or.inr hc'

lemma jsSetFold_nodup : ∀ (l : List String) (acc : List String),
    acc.Nodup → (List.foldl jsSetAdd acc l).Nodup
  | [], _, h => h
  | y :: rest, acc, h => by
    rw [List.foldl_cons]
    exact jsSetFold_nodup rest _ (nodup_jsSetAdd acc y h)

lemma mem_jsSetOfList (x : String) (l : List String) : x ∈ jsSetOfList l ↔ x ∈ l := by
  rw [jsSetOfList, jsSetFold_mem]
  simp

lemma nodup_jsSetOfList (l : List String) : (jsSetOfList l).Nodup :=
  jsSetFold_nodup l [] List.nodup_nil

lemma uniqueSorted_spec (l : List (Option String)) :
    (∀ x, x ∈ uniqueSorted l ↔ some x ∈ l ∧ x ≠ "") ∧
    (uniqueSorted l).Nodup ∧ List.Sorted strLe (uniqueSorted l) := by
  haveI : IsTotal String strLe := ⟨fun a b => charListLe_total a.toList b.toList⟩
  haveI : IsTrans String strLe := ⟨fun a b c => charListLe_trans a.toList b.toList c.toList⟩
  refine ⟨fun x => ?_, ?_, List.sorted_insertionSort strLe _⟩
  · rw [uniqueSorted, sortStrings,
      (List.perm_insertionSort strLe (jsSetOfList (filterBoolean l))).mem_iff,
      mem_jsSetOfList, mem_filterBoolean]
  · exact (List.perm_insertionSort strLe _).nodup_iff.mpr (nodup_jsSetOfList _)

/-- C7: each derived filter vocabulary contains exactly the distinct non-empty
values of the corresponding optional issue field (issues lacking the field
contribute nothing), without duplicates and sorted lexicographically; and the
spec's example: types Bug, Story, Bug yield the vocabulary Bug, Story. -/
theorem filter_vocabularies_spec (issues : List JiraIssue) :
    (∀ v, v ∈ types issues ↔
      (∃ issue ∈ issues, issue.fields.issuetype.map JiraIssueType.name = some v) ∧ v ≠ "") ∧
    (types issues).Nodup ∧ List.Sorted strLe (types issues) ∧
    (∀ v, v ∈ assignees issues ↔
      (∃ issue ∈ issues, issue.fields.assignee.map JiraAssignee.displayName = some v) ∧ v ≠ "") ∧
    (assignees issues).Nodup ∧ List.Sorted strLe (assignees issues) ∧
    (∀ v, v ∈ statuses issues ↔
      (∃ issue ∈ issues, issue.fields.status.map JiraStatus.name = some v) ∧ v ≠ "") ∧
    (statuses issues).Nodup ∧ List.Sorted strLe (statuses issues) ∧
    (∀ v, v ∈ priorities issues ↔
      (∃ issue ∈ issues, issue.fields.priority.map JiraPriority.name = some v) ∧ v ≠ "") ∧
    (priorities issues).Nodup ∧ List.Sorted strLe (priorities issues) ∧
    types [⟨"T-1", ⟨"a", none, none, none, some ⟨"Bug"⟩⟩⟩,
           ⟨"T-2", ⟨"b", none, none, none, some ⟨"Story"⟩⟩⟩,
           ⟨"T-3", ⟨"c", none, none, none, some ⟨"Bug"⟩⟩⟩] = ["Bug", "Story"] := by
  obtain ⟨hm1, hn1, hs1⟩ := uniqueSorted_spec
    (issues.map fun issue => issue.fields.issuetype.map JiraIssueType.name)
  obtain ⟨hm2, hn2, hs2⟩ := uniqueSorted_spec
    (issues.map fun issue => issue.fields.assignee.map JiraAssignee.displayName)
  obtain ⟨hm3, hn3, hs3⟩ := uniqueSorted_spec
    (issues.map fun issue => issue.fields.status.map JiraStatus.name)
  obtain ⟨hm4, hn4, hs4⟩ := uniqueSorted_spec
    (issues.map fun issue => issue.fields.priority.map JiraPriority.name)
  refine ⟨fun v => ?_, hn1, hs1, fun v => ?_, hn2, hs2, fun v => ?_, hn3, hs3,
    fun v => ?_, hn4, hs4, by decide⟩
  · rw [types, hm1 v, List.mem_map]
  · rw [assignees, hm2 v, List.mem_map]
  · rw [statuses, hm3 v, List.mem_map]
  · rw [priorities, hm4 v, List.mem_map]

/-- The nested floor divisions of `formatTimeAgo` collapsed to single
divisions of the elapsed milliseconds (`/` is floor division here since every
divisor is positive). -/
lemma formatTimeAgo_eq (now ts : Int) :
    formatTimeAgo now ts =
      if (now - ts) / 1000 < 60 then "just now"
      else if (now - ts) / 60000 < 60 then
        toString ((now - ts) / 60000) ++ " minute" ++
          (if (now - ts) / 60000 > 1 then "s" else "") ++ " ago"
      else if (now - ts) / 3600000 < 24 then
        toString ((now - ts) / 3600000) ++ " hour" ++
          (if (now - ts) / 3600000 > 1 then "s" else "") ++ " ago"
      else
        toString ((now - ts) / 86400000) ++ " day" ++
          (if (now - ts) / 86400000 > 1 then "s" else "") ++ " ago" := by
  have e1 : (now - ts).fdiv 1000 = (now - ts) / 1000 := Int.fdiv_eq_ediv _ (by norm_num)
  have e2 : ((now - ts) / 1000).fdiv 60 = (now - ts) / 60000 := by
    rw [Int.fdiv_eq_ediv _ (by norm_num)]
    omega
  have e3 : ((now - ts) / 60000).fdiv 60 = (now - ts) / 3600000 := by
    rw [Int.fdiv_eq_ediv _ (by norm_num)]
    omega
  have e4 : ((now - ts) / 3600000).fdiv 24 = (now - ts) / 86400000 := by
    rw [Int.fdiv_eq_ediv _ (by norm_num)]
    omega
  simp only [formatTimeAgo]
  rw [e1, e2, e3, e4]

/-- C8: the relative-time label is "just now" under 60 elapsed seconds, then
"N minute(s) ago" with N = the floor of elapsed/60s under 60 minutes,
"N hour(s) ago" with N = the floor of elapsed/1h under 24 hours, and
"N day(s) ago" with N = the floor of elapsed/24h from there on. -/
theorem formatTimeAgo_spec (now ts : Int) :
    (now - ts < 60000 → formatTimeAgo now ts = "just now") ∧
    (60000 ≤ now - ts → now - ts < 3600000 →
      formatTimeAgo now ts = toString ((now - ts) / 60000) ++ " minute" ++
        (if (now - ts) / 60000 > 1 then "s" else "") ++ " ago") ∧
    (3600000 ≤ now - ts → now - ts < 86400000 →
      formatTimeAgo now ts = toString ((now - ts) / 3600000) ++ " hour" ++
        (if (now - ts) / 3600000 > 1 then "s" else "") ++ " ago") ∧
    (86400000 ≤ now - ts →
      formatTimeAgo now ts = toString ((now - ts) / 86400000) ++ " day" ++
        (if (now - ts) / 86400000 > 1 then "s" else "") ++ " ago") := by
  refine ⟨fun h => ?_, fun h1 h2 => ?_, fun h1 h2 => ?_, fun h => ?_⟩ <;> rw [formatTimeAgo_eq]
  · rw [if_pos (by omega)]
  · rw [if_neg (by omega), if_pos (by omega)]
  · rw [if_neg (by omega), if_neg (by omega), if_pos (by omega)]
  · rw [if_neg (by omega), if_neg (by omega), if_neg (by omega)]

theorem formatTimeAgo_spec_witness :
    formatTimeAgo 90000 0 = "1 minute ago" ∧ formatTimeAgo 3600000 0 = "1 hour ago" := by
  constructor
  · rw [(formatTimeAgo_spec 90000 0).2.1 (by decide) (by decide)]
    rfl
  · rw [(formatTimeAgo_spec 3600000 0).2.2.1 (by decide) (by decide)]
    rfl

/-- C10: the relative-time label of any timestamp less than 60 seconds in the
past — in particular any present or future timestamp, where the elapsed time
is zero or negative — is exactly "just now". -/
theorem formatTimeAgo_total_spec (now ts : Int) :
    (now - ts < 60000 → formatTimeAgo now ts = "just now") ∧
    (now ≤ ts → formatTimeAgo now ts = "just now") := by
  have h : now - ts < 60000 → formatTimeAgo now ts = "just now" := by
    intro h
    rw [formatTimeAgo_eq, if_pos (by omega)]
  exact ⟨h, fun hle => h (by omega)⟩

theorem formatTimeAgo_total_spec_witness :
    formatTimeAgo 0 1000000 = "just now" :=
  (formatTimeAgo_total_spec 0 1000000).2 (by decide)

/-- C9: `getStatusColor` returns the color of the first keyword group that
matches the lowercased status, seven ordered groups mapping to pairwise
distinct colors, with a neutral default when no group matches; its value
depends on the status only through its lowercasing (case-insensitivity). -/
theorem getStatusColor_spec (status : String) :
    (getStatusColor status =
      match firstMatchingGroup (toLowerString status) with
      | some i => statusGroupColor i
      | none => ⟨.default, none⟩) ∧
    (∀ i j : Fin 7, i ≠ j → statusGroupColor i.val ≠ statusGroupColor j.val) ∧
    (∀ t : String, toLowerString status = toLowerString t →
      getStatusColor status = getStatusColor t) := by
  refine ⟨?_, by decide, ?_⟩
  · simp only [getStatusColor, firstMatchingGroup, statusGroupMatches]
    split_ifs <;> rfl
  · intro t h
    simp only [getStatusColor]
    rw [h]

theorem getStatusColor_spec_witness :
    getStatusColor "In Progress" = getStatusColor "IN PROGRESS" ∧
    statusGroupColor 0 ≠ statusGroupColor 1 := by
  constructor
  · exact (getStatusColor_spec "In Progress").2.2 "IN PROGRESS" (by decide)
  · exact (getStatusColor_spec "In Progress").2.1 0 1 (by decide)

/-- C4: with readable configuration the route issues exactly one upstream
request — whatever the upstream then does — whose URL is the configured base
followed by the search path, the URL-encoded JQL query (project selection
plus exclusion of Closed, Resolved, Done) and the fixed maxResults=1000, and
whose headers carry the configured bearer token and JSON accept; and the
encoding is spelled out concretely for project "ABC". -/
theorem issuesRoute_request_spec (jiraToken jiraUrl projectKey : String)
    (upstream : UpstreamRequest → UpstreamOutcome) :
    (issuesRoute (.ok jiraToken jiraUrl) projectKey upstream).1 =
      [{ url := jiraUrl ++ "/rest/api/2/search?jql=" ++
           encodeURIComponent ("project=" ++ projectKey ++
             " AND status NOT IN (Closed, Resolved, Done)") ++
           "&maxResults=" ++ "1000",
         authorization := "Bearer " ++ jiraToken,
         accept := "application/json" }] ∧
    encodeURIComponent (jqlQuery "ABC") =
      "project%3DABC%20AND%20status%20NOT%20IN%20(Closed%2C%20Resolved%2C%20Done)" := by
  constructor
  · simp only [issuesRoute]
    rcases upstream (issuesRequest jiraUrl jiraToken projectKey) with ⟨st, tx, js⟩ | msg
    · dsimp only
      split_ifs
      · cases js <;> rfl
      · rfl
    · rfl
  · decide

/-- C5: the route's answer, case by case: a 2xx upstream response whose body
parses is relayed as JSON; a non-2xx upstream status is relayed with that
very status (e.g. 401 stays 401, not 500) and a structured body naming the
upstream status and carrying the upstream response text; a network error or
a configuration read failure answers 500 with a structured error/message
body. -/
theorem issuesRoute_response_spec (jiraToken jiraUrl projectKey : String)
    (upstream : UpstreamRequest → UpstreamOutcome) (msg : String) :
    (∀ status text data,
      upstream (issuesRequest jiraUrl jiraToken projectKey) = .response status text (.ok data) →
      200 ≤ status → status < 300 →
      (issuesRoute (.ok jiraToken jiraUrl) projectKey upstream).2 = ⟨200, .upstreamJson data⟩) ∧
    (∀ status text jsonResult,
      upstream (issuesRequest jiraUrl jiraToken projectKey) = .response status text jsonResult →
      ¬(200 ≤ status ∧ status < 300) →
      (issuesRoute (.ok jiraToken jiraUrl) projectKey upstream).2 =
        ⟨status, .errorDetails ("Jira API error: " ++ toString status) text⟩) ∧
    (upstream (issuesRequest jiraUrl jiraToken projectKey) = .networkError msg →
      (issuesRoute (.ok jiraToken jiraUrl) projectKey upstream).2 =
        ⟨500, .errorMessage "Internal server error" msg⟩) ∧
    (issuesRoute (.error msg) projectKey upstream).2 =
      ⟨500, .errorMessage "Internal server error" msg⟩ := by
  refine ⟨?_, ?_, ?_, rfl⟩
  · intro status text data hup h1 h2
    simp only [issuesRoute]
    rw [hup]
    dsimp only
    rw [if_pos ⟨h1, h2⟩]
  · intro status text jsonResult hup hnot
    simp only [issuesRoute]
    rw [hup]
    dsimp only
    rw [if_neg hnot]
  · intro hup
    simp only [issuesRoute]
    rw [hup]

theorem issuesRoute_response_spec_witness :
    (issuesRoute (.ok "tok" "https://jira.example.com") "ABC"
      (fun _ => .response 401 "Unauthorized" (.error "not json"))).2 =
      ⟨401, .errorDetails ("Jira API error: " ++ toString 401) "Unauthorized"⟩ :=
  (issuesRoute_response_spec "tok" "https://jira.example.com" "ABC"
    (fun _ => .response 401 "Unauthorized" (.error "not json")) "m").2.1
    401 "Unauthorized" (.error "not json") rfl (by decide)
